import Mathlib

/-!
Verification development for the Xcode MCP build server
(source: src/build/index.js).

The development shallowly embeds the build/test execution pipeline:
command construction, process-outcome handling, output classification
(line splitting, opportunistic JSON decoding, diagnostic filtering),
success determination from failure banners, artifact persistence, the
result-bundle post-processor, and the latest-log resource handlers.

Platform primitives that are not part of the repository (the child
process, the filesystem, JSON.parse / JSON.stringify, the clock) are
modeled as explicit inputs: a `World` value records the outcome of the
single child-process invocation, the outcomes of the fallible
filesystem steps that the source itself branches on (the structured-log
write, the result-bundle existence test, the extraction sub-steps), the
ISO timestamp string, and the JSON decode/encode functions.  Writes the
source performs without any failure handler are modeled as succeeding.
All string manipulation is implemented by structural recursion over
`List Char` so that every definition evaluates inside the kernel.
-/

namespace XcodeMCP

/-! ## JavaScript values

Values produced by `JSON.parse` on a single output line.  Only the
top-level structure is ever inspected by the program (via `typeof`,
`line?.type` and `line.diagnostic?.severity`), so no recursion into
nested values is needed anywhere in the model. -/

/-- A JavaScript value as it can appear in the decoded line stream:
either a primitive, an array, or an object (a key/value field list,
accessed through `jsLookup`). -/
inductive JSVal : Type where
  | str (s : String)
  | num (n : Int)
  | boolean (b : Bool)
  | null
  | arr (elems : List JSVal)
  | obj (fields : List (String × JSVal))

/-- Property access `o.k` on an object's field list: the stored value of
the first field named `k`, or `none` (JavaScript `undefined`) when the
field is absent. -/
def jsLookup (fields : List (String × JSVal)) (key : String) : Option JSVal :=
  match fields with
  | [] => none
  | (k, v) :: rest => if k = key then some v else jsLookup rest key

/-- Strict comparison `o.k === lit` of a field against a string literal:
true exactly when the field is present and holds that string. -/
def isStrField (fields : List (String × JSVal)) (key val : String) : Bool :=
  match jsLookup fields key with
  | some (JSVal.str s) => s = val
  | _ => false

/-! ## String primitives

Replacements for the JavaScript string operations used by the source,
written by structural recursion so they reduce in the kernel.  Strings
here are ASCII in all concrete instances; the JavaScript and Lean
whitespace notions agree on them. -/

/-- Substring test at the head: does `pat` occur as a prefix of `s`
(list-of-characters form)?  Mirrors the prefix comparison underlying
`String.prototype.startsWith` and the substring scan. -/
def charsPrefix : List Char → List Char → Bool
  | [], _ => true
  | _ :: _, [] => false
  | p :: ps, c :: cs => p = c && charsPrefix ps cs

/-- Substring scan: does `pat` occur contiguously anywhere in `s`?
Mirrors `String.prototype.includes`. -/
def hasSubstr (pat : List Char) : List Char → Bool
  | [] => pat.isEmpty
  | c :: rest => charsPrefix pat (c :: rest) || hasSubstr pat rest

/-- Model of `s.includes(pat)`. -/
def strContains (s pat : String) : Bool := hasSubstr pat.data s.data

/-- Model of `s.startsWith(pat)`. -/
def strStartsWith (s pat : String) : Bool := charsPrefix pat.data s.data

/-- Number of (possibly overlapping) occurrences of a nonempty pattern,
used only to state counting properties about composed commands. -/
def countOccs (pat : List Char) : List Char → Nat
  | [] => 0
  | c :: rest => (if charsPrefix pat (c :: rest) then 1 else 0) + countOccs pat rest

/-- Split a character list at every occurrence of the separator, keeping
empty segments; mirrors `s.split(sep)` for a one-character separator. -/
def splitOnChar (sep : Char) : List Char → List (List Char)
  | [] => [[]]
  | c :: rest =>
    if c = sep then [] :: splitOnChar sep rest
    else
      match splitOnChar sep rest with
      | [] => [[c]]
      | h :: t => (c :: h) :: t

/-- Model of `stdout.split(String.fromCharCode(10))`. -/
def splitLines (s : String) : List String :=
  (splitOnChar '\n' s.data).map List.asString

/-- JavaScript whitespace as relevant to `String.prototype.trim` on the
program's output lines (the ASCII whitespace characters plus NBSP). -/
def isJsWhitespace (c : Char) : Bool :=
  c = ' ' || c = '\t' || c = '\n' || c = '\r' ||
  c = Char.ofNat 11 || c = Char.ofNat 12 || c = Char.ofNat 160

/-- Truthiness of `line.trim()`: false exactly when every character of
the line is whitespace (then `trim` yields the empty string). -/
def isBlankLine (s : String) : Bool := s.data.all isJsWhitespace

/-- Join a list of strings with a separator; mirrors `arr.join(sep)`. -/
def joinSep (sep : String) : List String → String
  | [] => ""
  | [x] => x
  | x :: y :: rest => x ++ sep ++ joinSep sep (y :: rest)

/-! ## Output classifier -/

/-- The non-blank output lines: `stdout.split` followed by
`.filter(line => line.trim())`, which keeps the lines whose trimmed
form is nonempty (truthy). -/
def nonBlankLines (stdout : String) : List String :=
  (splitLines stdout).filter (fun l => !isBlankLine l)

/-- Decode one line: `JSON.parse(line)` on success, the untouched line
as plain text on failure.  `parse` is the abstract `JSON.parse`,
returning `none` where the real parser would throw. -/
def decodeLine (parse : String → Option JSVal) (l : String) : JSVal :=
  match parse l with
  | some v => v
  | none => JSVal.str l

/-- The decoded line sequence `jsonOutput` computed by both
`buildProject` and `runTests`: split, drop blank lines, decode each
survivor. -/
def decodeLines (parse : String → Option JSVal) (stdout : String) : List JSVal :=
  (nonBlankLines stdout).map (decodeLine parse)

/-- Match of the error-location pattern (a regular expression anchored
at the start: a slash, one or more non-newline characters, a colon, one
or more digits, a colon, one or more digits, then colon-space-error-colon),
with full backtracking semantics.  `matchDigitsPlus k` consumes one or
more digits and hands every possible remainder to `k`. -/
def matchDigitsPlus (k : List Char → Bool) : List Char → Bool
  | [] => false
  | c :: rest => c.isDigit && (k rest || matchDigitsPlus k rest)

/-- Tail of the pattern after the dot-plus segment: a colon, digits, a
colon, digits, then the literal colon-space-error-colon. -/
def matchColonDigits (l : List Char) : Bool :=
  match l with
  | ':' :: rest =>
    matchDigitsPlus (fun r1 =>
      match r1 with
      | ':' :: r2 => matchDigitsPlus (fun r3 => charsPrefix ": error:".data r3) r2
      | _ => false) rest
  | _ => false

/-- Scan for the end of the dot-plus segment: consume one or more
non-newline characters, then match the colon-digits tail. -/
def scanDotPlus : List Char → Bool
  | [] => false
  | c :: rest => !(c = '\n') && (matchColonDigits rest || scanDotPlus rest)

/-- Truthiness of `line.match(errorLocationRegex)`: the line starts with
a slash and the rest matches dot-plus followed by the colon-digits tail. -/
def errorLineMatch (s : String) : Bool :=
  match s.data with
  | '/' :: rest => scanDotPlus rest
  | _ => false

/-- The per-line predicate of `filterBuildOutput`.  A plain string is
kept when it is a build-system line (starts with the xcodebuild path or
contains the BUILD banner fragment), an error line with a file
location, or a candidate note.  A decoded object is kept when its
`type` field is the string `diagnostic` and its `diagnostic` field is
an object whose `severity` field is the string `error`.  Every other
value (arrays, numbers, booleans, null, other objects) is dropped. -/
def keepLine (line : JSVal) : Bool :=
  match line with
  | JSVal.str s =>
    if strStartsWith s "/usr/bin/xcodebuild" || strContains s "** BUILD" then
      true
    else if errorLineMatch s || strContains s "note: found this candidate" then
      true
    else
      false
  | JSVal.obj fields =>
    if isStrField fields "type" "diagnostic" then
      match jsLookup fields "diagnostic" with
      | some (JSVal.obj d) => isStrField d "severity" "error"
      | _ => false
    else
      false
  | _ => false

/-- The `filterBuildOutput` helper: keep only the significant lines. -/
def filterBuildOutput (jsonOutput : List JSVal) : List JSVal :=
  jsonOutput.filter keepLine

/-- The line sequence `buildProject` persists and renders: the full
decoded sequence when warnings are requested, otherwise the filtered
one. -/
def processedLines (includeWarnings : Bool) (jsonOutput : List JSVal) : List JSVal :=
  if includeWarnings then jsonOutput else filterBuildOutput jsonOutput

/-- Render one processed line for the response text: strings unchanged,
anything else through the abstract `JSON.stringify`. -/
def renderLine (stringify : JSVal → String) (line : JSVal) : String :=
  match line with
  | JSVal.str s => s
  | v => stringify v

/-- The response text `outputText` of `buildProject`: rendered lines
joined with newlines. -/
def renderLines (stringify : JSVal → String) (lines : List JSVal) : String :=
  joinSep "\n" (lines.map (renderLine stringify))

/-! ## Command builder -/

/-- Timestamp normalization: `new Date().toISOString().replace(/[:.]/g, chr45)`
turns every colon and period of the ISO timestamp into a hyphen. -/
def normalizeTs (iso : String) : String :=
  (iso.data.map (fun c => if c = ':' || c = '.' then '-' else c)).asString

/-- Model of `path.join(a, b)` for the well-formed relative segments the
program joins (no normalization cases arise). -/
def pathJoin (a b : String) : String := a ++ "/" ++ b

/-- Model of `path.dirname` for the plain slash-separated paths the
program passes (no trailing-slash or root edge cases arise). -/
def dirname (p : String) : String :=
  let comps := splitOnChar '/' p.data
  if comps.length ≤ 1 then "." else joinSep "/" (comps.dropLast.map List.asString)

/-- The `testFlags` accumulator of `runTests`: the literal `test`, then
`-only-testing:` with the identifier when `testIdentifier` is truthy
(present and nonempty), then one `-skip-testing:` term per skip entry,
joined by single spaces, when `skipTests` is present and nonempty. -/
def testFlags (testIdentifier : Option String) (skipTests : Option (List String)) : String :=
  let f0 := "test"
  let f1 :=
    match testIdentifier with
    | some id => if id = "" then f0 else f0 ++ " -only-testing:" ++ id
    | none => f0
  match skipTests with
  | some ts =>
    if ts.isEmpty then f1
    else f1 ++ " " ++ joinSep " " (ts.map (fun t => "-skip-testing:" ++ t))
  | none => f1

/-- Separator contributed by a backslash line continuation in the
template literal: the space before the backslash plus the eight-space
indentation of the following line. -/
def contSep : String := "         "

/-- The composed `xcodebuild` test command of `runTests`, with the
toolchain-presence prefix, quoted project/scheme/configuration, the
destination in single quotes (written as an escape), the result-bundle
path, coverage and modern-build-system flags, JSON output, the clean
action plus `testFlags`, and duplication of the stream into the log via
`tee`. -/
def testCommand (projectPath scheme configuration destination xcresultPath logPath flags : String) : String :=
  "which xcodebuild && xcodebuild -project \"" ++ projectPath ++ "\"" ++ contSep ++
  "-scheme \"" ++ scheme ++ "\"" ++ contSep ++
  "-configuration \"" ++ configuration ++ "\"" ++ contSep ++
  "-destination \x27" ++ destination ++ "\x27" ++ contSep ++
  "-resultBundlePath \"" ++ xcresultPath ++ "\"" ++ contSep ++
  "-enableCodeCoverage YES" ++ contSep ++
  "-UseModernBuildSystem=YES" ++ contSep ++
  "-json" ++ contSep ++
  "clean " ++ flags ++ " 2>&1 | tee " ++ logPath

/-- The composed `xcodebuild` build command of `buildProject`: as the
test command but without coverage, with the fixed `clean build` action
pair. -/
def buildCommand (projectPath scheme configuration destination xcresultPath logPath : String) : String :=
  "which xcodebuild && xcodebuild -project \"" ++ projectPath ++ "\"" ++ contSep ++
  "-scheme \"" ++ scheme ++ "\"" ++ contSep ++
  "-configuration \"" ++ configuration ++ "\"" ++ contSep ++
  "-destination \x27" ++ destination ++ "\x27" ++ contSep ++
  "-resultBundlePath \"" ++ xcresultPath ++ "\"" ++ contSep ++
  "-UseModernBuildSystem=YES" ++ contSep ++
  "-json" ++ contSep ++
  "clean build 2>&1 | tee " ++ logPath

/-! ## Process and filesystem world

Outcomes of the platform effects.  The model records exactly the
failure points the source branches on; a filesystem write the source
performs with no handler around it is modeled as succeeding. -/

/-- Captured streams of a resolved `execAsync` call. -/
structure ExecOk : Type where
  stdout : String
  stderr : String

/-- A thrown JavaScript value as the `catch` blocks see it: whether it
is an `Error` instance, its message, and an optionally attached
`stderr` (`none` models an absent property; the empty string is a
present but falsy one). -/
structure JsError : Type where
  isError : Bool
  message : String
  errStderr : Option String

/-- Outcome of the main `execAsync` invocation: resolution with the
captured streams, or rejection with a thrown value.  With `exec`, any
nonzero exit code of the child rejects the promise. -/
inductive ExecOutcome : Type where
  | ok (r : ExecOk)
  | err (e : JsError)

/-- Outcome of one best-effort secondary tool invocation: its captured
stdout, or a thrown value (whose shape never matters, because the
surrounding `catch` swallows everything). -/
inductive StepResult : Type where
  | ok (out : String)
  | fail

/-- Outcomes of the four sub-steps of the result-bundle post-processor:
first extraction command, first write, second extraction command,
second write. -/
structure ExtractEnv : Type where
  out1 : StepResult
  write1Ok : Bool
  out2 : StepResult
  write2Ok : Bool

/-- Content of a file produced by the pipeline: raw text written by
`tee` or `writeFile`, or the pretty-printed JSON rendering of a line
sequence (kept in decoded form, since the serialization itself is never
re-read by the program). -/
inductive LogContent : Type where
  | text (s : String)
  | jsonLines (lines : List JSVal)

/-- The platform inputs of one invocation. -/
structure World : Type where
  /-- ISO-8601 timestamp produced by the clock for this invocation. -/
  isoTimestamp : String
  /-- Outcome of the main child-process invocation. -/
  exec : ExecOutcome
  /-- Whether `mkdir` for the reports directory rejects (logged and
  ignored by the source). -/
  mkdirFails : Bool
  /-- Whether the `writeFile` of the structured log (`.log.json`)
  rejects. -/
  writeJsonFails : Bool
  /-- Whether `fs.existsSync` reports the result bundle present. -/
  xcresultExists : Bool
  /-- Outcomes of the extraction sub-steps. -/
  extract : ExtractEnv
  /-- Abstract `JSON.parse` on one line: `none` where the parser would
  throw. -/
  parse : String → Option JSVal
  /-- Abstract `JSON.stringify` on one non-string decoded value. -/
  stringify : JSVal → String

/-- The value returned to the tool layer. -/
structure InvocationResult : Type where
  success : Bool
  output : String
  logPath : String

/-- A returned result together with the command line handed to the
shell, the file writes performed (in order; a later write to the same
path supersedes an earlier one) and whether result-bundle extraction
was attempted. -/
structure InvocationOutcome : Type where
  result : InvocationResult
  command : String
  writes : List (String × LogContent)
  extractionAttempted : Bool

/-- The error text assembled in the `catch` blocks:
`error.message + (execError.stderr ? newline + stderr : empty)`. -/
def jsErrorOutput (e : JsError) : String :=
  e.message ++
    match e.errStderr with
    | some s => if s = "" then "" else "\n" ++ s
    | none => ""

/-- Writes performed by the best-effort extraction block: run the first
command, write its stdout to `path1`, run the second, write to `path2`;
the first failure aborts the rest (the shared `catch` logs and
swallows it). -/
def runExtract (env : ExtractEnv) (path1 path2 : String) : List (String × LogContent) :=
  match env.out1 with
  | StepResult.fail => []
  | StepResult.ok o1 =>
    if env.write1Ok then
      (path1, LogContent.text o1) ::
        (match env.out2 with
         | StepResult.fail => []
         | StepResult.ok o2 => if env.write2Ok then [(path2, LogContent.text o2)] else [])
    else []

/-! ## The two pipeline entry points -/

/-- The `buildProject` method.  `baseDir` is the server's base
directory (`buildLogsDir` is its `build-logs` subdirectory).  Returns
`Except.error` exactly where the source re-throws a non-`Error` value;
otherwise the primary result plus the recorded effects. -/
def buildProject (baseDir projectPath scheme configuration destination : String)
    (includeWarnings : Bool) (w : World) : Except JsError InvocationOutcome :=
  let ts := normalizeTs w.isoTimestamp
  let buildLogsDir := pathJoin baseDir "build-logs"
  let logPath := pathJoin buildLogsDir ("build-" ++ ts ++ ".log")
  let xcresultPath :=
    pathJoin (pathJoin (dirname projectPath) "Build") ("Reports-" ++ ts) ++ ".xcresult"
  let command := buildCommand projectPath scheme configuration destination xcresultPath logPath
  match w.exec with
  | ExecOutcome.ok r =>
    -- the shell already duplicated the captured stream into the log via tee
    let teeWrite := (logPath, LogContent.text r.stdout)
    if w.writeJsonFails then
      -- the structured-log write threw: the catch block reports failure
      -- with the raw streams; the xcresult block is never reached
      Except.ok
        { result := { success := false, output := r.stdout ++ r.stderr, logPath := logPath }
          command := command
          writes := [teeWrite]
          extractionAttempted := false }
    else
      let jsonOutput := decodeLines w.parse r.stdout
      let filteredOutput := processedLines includeWarnings jsonOutput
      let outputText := renderLines w.stringify filteredOutput
      let extractWrites :=
        if w.xcresultExists then
          runExtract w.extract
            (pathJoin buildLogsDir ("report-" ++ ts ++ ".json"))
            (pathJoin buildLogsDir ("report-" ++ ts ++ ".txt"))
        else []
      let success := !strContains r.stdout "** BUILD FAILED **"
      Except.ok
        { result := { success := success, output := outputText, logPath := logPath }
          command := command
          writes := teeWrite :: (logPath ++ ".json", LogContent.jsonLines filteredOutput) :: extractWrites
          extractionAttempted := w.xcresultExists }
  | ExecOutcome.err e =>
    if e.isError then
      let errorOutput := jsErrorOutput e
      Except.ok
        { result := { success := false, output := errorOutput, logPath := logPath }
          command := command
          writes := [(logPath, LogContent.text errorOutput)]
          extractionAttempted := false }
    else
      Except.error e

/-- The `runTests` method.  Unlike `buildProject`, the structured-log
write sits inside its own swallowing `try`, the response text is the
raw `stdout + stderr`, and the success test also looks for the TEST
banner. -/
def runTests (baseDir projectPath scheme configuration : String)
    (testIdentifier : Option String) (skipTests : Option (List String))
    (destination : String) (w : World) : Except JsError InvocationOutcome :=
  let ts := normalizeTs w.isoTimestamp
  let buildLogsDir := pathJoin baseDir "build-logs"
  let logPath := pathJoin buildLogsDir ("test-" ++ ts ++ ".log")
  let xcresultPath :=
    pathJoin (pathJoin (dirname projectPath) "TestReports") ("Reports-" ++ ts) ++ ".xcresult"
  let command :=
    testCommand projectPath scheme configuration destination xcresultPath logPath
      (testFlags testIdentifier skipTests)
  match w.exec with
  | ExecOutcome.ok r =>
    let teeWrite := (logPath, LogContent.text r.stdout)
    let jsonWrites :=
      if w.writeJsonFails then []
      else [(logPath ++ ".json", LogContent.jsonLines (decodeLines w.parse r.stdout))]
    let extractWrites :=
      if w.xcresultExists then
        runExtract w.extract
          (pathJoin buildLogsDir ("test-summary-" ++ ts ++ ".json"))
          (pathJoin buildLogsDir ("coverage-" ++ ts ++ ".txt"))
      else []
    let success :=
      !strContains r.stdout "** TEST FAILED **" && !strContains r.stdout "** BUILD FAILED **"
    Except.ok
      { result := { success := success, output := r.stdout ++ r.stderr, logPath := logPath }
        command := command
        writes := teeWrite :: (jsonWrites ++ extractWrites)
        extractionAttempted := w.xcresultExists }
  | ExecOutcome.err e =>
    if e.isError then
      let errorOutput := jsErrorOutput e
      Except.ok
        { result := { success := false, output := errorOutput, logPath := logPath }
          command := command
          writes := [(logPath, LogContent.text errorOutput)]
          extractionAttempted := false }
    else
      Except.error e

/-! ## Server layer: tool dispatch and the latest-log resource -/

/-- The mutable server state: the `latestBuildLog` slot (empty until
the first completed invocation) together with the accumulated
filesystem state, as the ordered list of writes performed so far. -/
structure ServerState : Type where
  latestBuildLog : Option String
  disk : List (String × LogContent)

/-- The state of a freshly constructed server over an empty log
directory: `latestBuildLog` is null and nothing has been written. -/
def initialState : ServerState := { latestBuildLog := none, disk := [] }

/-- Current content of a path under last-write-wins semantics. -/
def diskLookup (disk : List (String × LogContent)) (p : String) : Option LogContent :=
  match disk with
  | [] => none
  | (q, c) :: rest =>
    match diskLookup rest p with
    | some c2 => some c2
    | none => if q = p then some c else none

/-- The response the tool handler sends back: the result's output text,
flagged as an error exactly when the invocation did not succeed. -/
structure ToolResponse : Type where
  text : String
  isError : Bool

/-- Shared tail of both `CallToolRequest` branches: store the returned
log path in `latestBuildLog`, append the invocation's writes to the
disk, and answer with the output text. -/
def applyOutcome (s : ServerState) (o : InvocationOutcome) : ToolResponse × ServerState :=
  ({ text := o.result.output, isError := !o.result.success },
   { latestBuildLog := some o.result.logPath, disk := s.disk ++ o.writes })

/-- The `build_project` tool branch of the `CallToolRequest` handler. -/
def handleBuildTool (s : ServerState) (baseDir projectPath scheme configuration destination : String)
    (includeWarnings : Bool) (w : World) : Except JsError (ToolResponse × ServerState) :=
  match buildProject baseDir projectPath scheme configuration destination includeWarnings w with
  | Except.ok o => Except.ok (applyOutcome s o)
  | Except.error e => Except.error e

/-- The `run_tests` tool branch of the `CallToolRequest` handler. -/
def handleTestTool (s : ServerState) (baseDir projectPath scheme configuration : String)
    (testIdentifier : Option String) (skipTests : Option (List String))
    (destination : String) (w : World) : Except JsError (ToolResponse × ServerState) :=
  match runTests baseDir projectPath scheme configuration testIdentifier skipTests destination w with
  | Except.ok o => Except.ok (applyOutcome s o)
  | Except.error e => Except.error e

/-- URI of the single named resource. -/
def latestLogUri : String := "xcode-build://latest-log"

/-- The `ListResourcesRequest` handler: one resource when
`latestBuildLog` is set, none otherwise. -/
def listResources (s : ServerState) : List String :=
  match s.latestBuildLog with
  | some _ => [latestLogUri]
  | none => []

/-- The `ReadResourceRequest` handler: rejects unknown URIs and reads
before any invocation, otherwise returns the current content of the
latest log path (`none` also models the read failing because the file
is absent). -/
def readResource (s : ServerState) (uri : String) : Option LogContent :=
  match s.latestBuildLog with
  | none => none
  | some p => if uri = latestLogUri then diskLookup s.disk p else none

/-- The text that ends up in the raw log for a given world: the
captured stdout duplicated by `tee` when the process resolves, the
assembled error text written by the `catch` block when it rejects. -/
def rawLogText (w : World) : Option String :=
  match w.exec with
  | ExecOutcome.ok r => some r.stdout
  | ExecOutcome.err e => if e.isError then some (jsErrorOutput e) else none

/-- The primary result of an invocation, with the recorded effects
forgotten. -/
def resultOf (x : Except JsError InvocationOutcome) : Except JsError InvocationResult :=
  x.map (fun o => o.result)

/-! ## Helper lemmas -/

theorem charsPrefix_refl (p : List Char) : charsPrefix p p = true := by
  induction p with
  | nil => rfl
  | cons c cs ih => simp [charsPrefix, ih]

theorem charsPrefix_extend (p x b : List Char) (h : charsPrefix p x = true) :
    charsPrefix p (x ++ b) = true := by
  induction p generalizing x with
  | nil => rfl
  | cons c cs ih =>
    cases x with
    | nil => simp [charsPrefix] at h
    | cons y ys =>
      simp [charsPrefix] at h ⊢
      exact ⟨h.1, ih ys h.2⟩

theorem hasSubstr_self (p : List Char) : hasSubstr p p = true := by
  cases p with
  | nil => rfl
  | cons c cs => simp [hasSubstr, charsPrefix_refl]

theorem hasSubstr_nil_pat (l : List Char) : hasSubstr [] l = true := by
  cases l <;> simp [hasSubstr, charsPrefix]

theorem hasSubstr_extend (p a b : List Char) (h : hasSubstr p a = true) :
    hasSubstr p (a ++ b) = true := by
  induction a with
  | nil =>
    simp [hasSubstr, List.isEmpty_iff] at h
    simp [h, hasSubstr_nil_pat]
  | cons c cs ih =>
    simp only [hasSubstr, Bool.or_eq_true] at h
    rcases h with h | h
    · simp only [List.cons_append, hasSubstr, Bool.or_eq_true]
      exact Or.inl (charsPrefix_extend _ _ _ h)
    · simp only [List.cons_append, hasSubstr, Bool.or_eq_true]
      exact Or.inr (ih h)

theorem hasSubstr_shift (p a b : List Char) (h : hasSubstr p b = true) :
    hasSubstr p (a ++ b) = true := by
  induction a with
  | nil => exact h
  | cons c cs ih => simp only [List.cons_append, hasSubstr, Bool.or_eq_true]; exact Or.inr ih

theorem strContains_append_l (a b p : String) (h : strContains a p = true) :
    strContains (a ++ b) p = true := by
  simpa [strContains, String.data_append] using hasSubstr_extend p.data a.data b.data h

theorem strContains_append_r (a b p : String) (h : strContains b p = true) :
    strContains (a ++ b) p = true := by
  simpa [strContains, String.data_append] using hasSubstr_shift p.data a.data b.data h

theorem strContains_self (p : String) : strContains p p = true := hasSubstr_self p.data

theorem strNe_of_length_ne {s t : String} (h : s.length ≠ t.length) : s ≠ t :=
  fun e => h (congrArg String.length e)

theorem diskLookup_eq_none {disk : List (String × LogContent)} {p : String}
    (h : ∀ e ∈ disk, e.1 ≠ p) : diskLookup disk p = none := by
  induction disk with
  | nil => rfl
  | cons e rest ih =>
    have hrest : diskLookup rest p = none := ih (fun x hx => h x (List.mem_cons_of_mem e hx))
    have he : e.1 ≠ p := h e (List.mem_cons_self e rest)
    cases e with
    | mk q c => simp [diskLookup, hrest, he]

theorem diskLookup_head {rest : List (String × LogContent)} {p : String} (c : LogContent)
    (h : ∀ e ∈ rest, e.1 ≠ p) : diskLookup ((p, c) :: rest) p = some c := by
  simp [diskLookup, diskLookup_eq_none h]

theorem runExtract_paths (env : ExtractEnv) (p1 p2 : String) :
    ∀ e ∈ runExtract env p1 p2, e.1 = p1 ∨ e.1 = p2 := by
  intro e he
  cases h1 : env.out1 with
  | fail => simp [runExtract, h1] at he
  | ok o1 =>
    by_cases hw1 : env.write1Ok
    · cases h2 : env.out2 with
      | fail =>
        simp [runExtract, h1, h2, hw1] at he
        simp [he]
      | ok o2 =>
        by_cases hw2 : env.write2Ok
        · simp [runExtract, h1, h2, hw1, hw2] at he
          rcases he with he | he <;> simp [he]
        · simp [runExtract, h1, h2, hw1, hw2] at he
          simp [he]
    · simp [runExtract, h1, hw1] at he

/-! ## Concrete scaffolding for witnesses and counterexamples

A sample world; the sample `parse` returns `none` everywhere, which
agrees with the real JSON parser on every line occurring in the sample
outputs below (none of them is valid JSON). -/

/-- Sample `JSON.parse`: failure on every line. -/
def parseNone : String → Option JSVal := fun _ => none

/-- Sample `JSON.stringify`. -/
def stringifyEmpty : JSVal → String := fun _ => ""

/-- Sample extraction environment in which every sub-step succeeds. -/
def extractAllOk : ExtractEnv :=
  { out1 := StepResult.ok "summary", write1Ok := true
    out2 := StepResult.ok "coverage", write2Ok := true }

/-- A world with the given process outcome and every modeled
filesystem step succeeding; no result bundle is present. -/
def mkWorld (e : ExecOutcome) : World :=
  { isoTimestamp := "2025-01-02T03:04:05.678Z"
    exec := e
    mkdirFails := false
    writeJsonFails := false
    xcresultExists := false
    extract := extractAllOk
    parse := parseNone
    stringify := stringifyEmpty }

/-! ## Claims -/

/-- C1.  For every build invocation whose child process resolves with
captured stdout containing the BUILD-FAILED banner (and every test
invocation whose stdout contains either banner), the returned
`InvocationResult` has `success = false` — on every branch the
invocation can take from there, hence independently of anything the
exit code could contribute (a nonzero exit code would reject the
promise and also yield `success = false`, per C6's error path). -/
theorem banner_forces_failure :
    (∀ (baseDir projectPath scheme configuration destination : String) (iw : Bool)
       (w : World) (r : ExecOk) (o : InvocationOutcome),
       w.exec = ExecOutcome.ok r →
       strContains r.stdout "** BUILD FAILED **" = true →
       buildProject baseDir projectPath scheme configuration destination iw w = Except.ok o →
       o.result.success = false) ∧
    (∀ (baseDir projectPath scheme configuration destination : String)
       (ti : Option String) (sk : Option (List String))
       (w : World) (r : ExecOk) (o : InvocationOutcome),
       w.exec = ExecOutcome.ok r →
       (strContains r.stdout "** BUILD FAILED **" = true ∨
        strContains r.stdout "** TEST FAILED **" = true) →
       runTests baseDir projectPath scheme configuration ti sk destination w = Except.ok o →
       o.result.success = false) := by
  constructor
  · intro bd pp sc cf d iw w r o hexec hban hok
    unfold buildProject at hok
    rw [hexec] at hok
    by_cases hwj : w.writeJsonFails = true
    · simp only [hwj, if_true] at hok
      injection hok with h
      subst h
      rfl
    · simp only [Bool.not_eq_true] at hwj
      simp only [hwj, Bool.false_eq_true, if_false] at hok
      injection hok with h
      subst h
      simp [hban]
  · intro bd pp sc cf ti sk d w r o hexec hban hok
    unfold runTests at hok
    rw [hexec] at hok
    injection hok with h
    subst h
    rcases hban with hban | hban <;> simp [hban]

/-- Witness for C1 at a concrete failing build and a concrete failing
test run. -/
theorem banner_forces_failure_witness :
    ∃ o₁ o₂,
      buildProject "/b" "/p/X.xcodeproj" "S" "Debug" "d" false
          (mkWorld (ExecOutcome.ok { stdout := "** BUILD FAILED **\n", stderr := "" })) =
        Except.ok o₁ ∧
      o₁.result.success = false ∧
      runTests "/b" "/p/X.xcodeproj" "S" "Debug" none none "d"
          (mkWorld (ExecOutcome.ok { stdout := "Testing...\n** TEST FAILED **\n", stderr := "" })) =
        Except.ok o₂ ∧
      o₂.result.success = false := by
  refine ⟨_, _, rfl, ?_, rfl, ?_⟩
  · exact banner_forces_failure.1 "/b" "/p/X.xcodeproj" "S" "Debug" "d" false
      (mkWorld (ExecOutcome.ok { stdout := "** BUILD FAILED **\n", stderr := "" }))
      { stdout := "** BUILD FAILED **\n", stderr := "" } _ rfl (by decide) rfl
  · exact banner_forces_failure.2 "/b" "/p/X.xcodeproj" "S" "Debug" "d" none none
      (mkWorld (ExecOutcome.ok { stdout := "Testing...\n** TEST FAILED **\n", stderr := "" }))
      { stdout := "Testing...\n** TEST FAILED **\n", stderr := "" } _ rfl
      (Or.inr (by decide)) rfl

/-- C2, counterexample.  A build whose process resolves with the
failure banner in stdout and a nonempty stderr returns the
filtered/rendered line text as its output, not the full captured
stdout-plus-stderr the claim promises. -/
theorem build_output_not_full_capture :
    ∃ o,
      buildProject "/b" "/p/X.xcodeproj" "S" "Debug" "d" false
          (mkWorld (ExecOutcome.ok { stdout := "** BUILD FAILED **\n", stderr := "es" })) =
        Except.ok o ∧
      o.result.success = false ∧
      o.result.output = "** BUILD FAILED **" ∧
      "** BUILD FAILED **\n" ++ "es" ≠ "** BUILD FAILED **" :=
  ⟨_, rfl, rfl, rfl, by decide⟩

/-- C2 as amended.  A build or test invocation whose process resolves
with a failure banner in stdout reports `success = false` through an
ordinary result, never an exception; the output is the full captured
`stdout + stderr` for test invocations (and for build invocations whose
structured-log write fails), while a build invocation that persists its
structured log returns the rendered processed line sequence instead. -/
theorem failure_banner_reporting :
    (∀ (baseDir projectPath scheme configuration : String)
       (ti : Option String) (sk : Option (List String)) (destination : String)
       (w : World) (r : ExecOk),
       w.exec = ExecOutcome.ok r →
       (strContains r.stdout "** BUILD FAILED **" = true ∨
        strContains r.stdout "** TEST FAILED **" = true) →
       ∃ o, runTests baseDir projectPath scheme configuration ti sk destination w = Except.ok o ∧
         o.result.success = false ∧ o.result.output = r.stdout ++ r.stderr) ∧
    (∀ (baseDir projectPath scheme configuration destination : String) (iw : Bool)
       (w : World) (r : ExecOk),
       w.exec = ExecOutcome.ok r → w.writeJsonFails = false →
       strContains r.stdout "** BUILD FAILED **" = true →
       ∃ o, buildProject baseDir projectPath scheme configuration destination iw w = Except.ok o ∧
         o.result.success = false ∧
         o.result.output = renderLines w.stringify (processedLines iw (decodeLines w.parse r.stdout))) ∧
    (∀ (baseDir projectPath scheme configuration destination : String) (iw : Bool)
       (w : World) (r : ExecOk),
       w.exec = ExecOutcome.ok r → w.writeJsonFails = true →
       ∃ o, buildProject baseDir projectPath scheme configuration destination iw w = Except.ok o ∧
         o.result.success = false ∧ o.result.output = r.stdout ++ r.stderr) := by
  refine ⟨?_, ?_, ?_⟩
  · intro bd pp sc cf ti sk d w r hexec hban
    simp only [runTests, hexec]
    refine ⟨_, rfl, ?_, rfl⟩
    rcases hban with hban | hban <;> simp [hban]
  · intro bd pp sc cf d iw w r hexec hwj hban
    simp only [buildProject, hexec, hwj, Bool.false_eq_true, if_false]
    exact ⟨_, rfl, by simp [hban], rfl⟩
  · intro bd pp sc cf d iw w r hexec hwj
    simp only [buildProject, hexec, hwj, if_true]
    exact ⟨_, rfl, rfl, rfl⟩

/-- Witness for C2's amended statement: all three branches at concrete
invocations. -/
theorem failure_banner_reporting_witness :
    (∃ o, runTests "/b" "/p/X.xcodeproj" "S" "Debug" none none "d"
        (mkWorld (ExecOutcome.ok { stdout := "** TEST FAILED **\n", stderr := "es" })) =
          Except.ok o ∧
      o.result.success = false ∧
      o.result.output = "** TEST FAILED **\n" ++ "es") ∧
    (∃ o, buildProject "/b" "/p/X.xcodeproj" "S" "Debug" "d" false
        (mkWorld (ExecOutcome.ok { stdout := "** BUILD FAILED **\n", stderr := "es" })) =
          Except.ok o ∧
      o.result.success = false ∧
      o.result.output =
        renderLines stringifyEmpty
          (processedLines false (decodeLines parseNone "** BUILD FAILED **\n"))) ∧
    (∃ o, buildProject "/b" "/p/X.xcodeproj" "S" "Debug" "d" false
        { mkWorld (ExecOutcome.ok { stdout := "** BUILD FAILED **\n", stderr := "es" }) with
            writeJsonFails := true } =
          Except.ok o ∧
      o.result.success = false ∧
      o.result.output = "** BUILD FAILED **\n" ++ "es") := by
  refine ⟨?_, ?_, ?_⟩
  · exact failure_banner_reporting.1 "/b" "/p/X.xcodeproj" "S" "Debug" none none "d"
      (mkWorld (ExecOutcome.ok { stdout := "** TEST FAILED **\n", stderr := "es" }))
      { stdout := "** TEST FAILED **\n", stderr := "es" } rfl (Or.inr (by decide))
  · exact failure_banner_reporting.2.1 "/b" "/p/X.xcodeproj" "S" "Debug" "d" false
      (mkWorld (ExecOutcome.ok { stdout := "** BUILD FAILED **\n", stderr := "es" }))
      { stdout := "** BUILD FAILED **\n", stderr := "es" } rfl rfl (by decide)
  · exact failure_banner_reporting.2.2 "/b" "/p/X.xcodeproj" "S" "Debug" "d" false
      { mkWorld (ExecOutcome.ok { stdout := "** BUILD FAILED **\n", stderr := "es" }) with
          writeJsonFails := true }
      { stdout := "** BUILD FAILED **\n", stderr := "es" } rfl rfl

theorem keepLine_obj_iff (fields : List (String × JSVal)) :
    keepLine (JSVal.obj fields) = true ↔
      (isStrField fields "type" "diagnostic" = true ∧
       ∃ d, jsLookup fields "diagnostic" = some (JSVal.obj d) ∧
         isStrField d "severity" "error" = true) := by
  unfold keepLine
  by_cases ht : isStrField fields "type" "diagnostic" = true
  · simp only [ht, if_true, true_and]
    cases hd : jsLookup fields "diagnostic" with
    | none => simp
    | some v => cases v <;> simp
  · simp [ht]

/-- C3.  With `includeWarnings = false`, the line sequence a build
persists and renders retains a decoded structured record exactly when
its `type` is the string `diagnostic` and the `severity` its
`diagnostic` payload carries is exactly the string `error`; and that
sequence is precisely what the build writes as its structured log. -/
theorem diagnostic_filter_iff :
    (∀ (jsonOutput : List JSVal) (fields : List (String × JSVal)),
       JSVal.obj fields ∈ processedLines false jsonOutput ↔
         (JSVal.obj fields ∈ jsonOutput ∧
          isStrField fields "type" "diagnostic" = true ∧
          ∃ d, jsLookup fields "diagnostic" = some (JSVal.obj d) ∧
            isStrField d "severity" "error" = true)) ∧
    (∀ (baseDir projectPath scheme configuration destination : String) (w : World) (r : ExecOk),
       w.exec = ExecOutcome.ok r → w.writeJsonFails = false →
       ∃ o, buildProject baseDir projectPath scheme configuration destination false w = Except.ok o ∧
         (pathJoin (pathJoin baseDir "build-logs")
              ("build-" ++ normalizeTs w.isoTimestamp ++ ".log") ++ ".json",
          LogContent.jsonLines (processedLines false (decodeLines w.parse r.stdout))) ∈ o.writes) := by
  constructor
  · intro jsonOutput fields
    simp only [processedLines, Bool.false_eq_true, if_false, filterBuildOutput, List.mem_filter,
      keepLine_obj_iff, and_assoc]
  · intro bd pp sc cf d w r hexec hwj
    simp only [buildProject, hexec, hwj, Bool.false_eq_true, if_false]
    exact ⟨_, rfl, List.mem_cons_of_mem _ (List.mem_cons_self _ _)⟩

/-- Witness for C3: in a concrete decoded sequence, the error
diagnostic is retained and the warning diagnostic is dropped, and a
concrete build persists exactly the filtered sequence. -/
theorem diagnostic_filter_iff_witness :
    (JSVal.obj [("type", JSVal.str "diagnostic"),
                ("diagnostic", JSVal.obj [("severity", JSVal.str "error")])] ∈
       processedLines false
         [JSVal.str "note",
          JSVal.obj [("type", JSVal.str "diagnostic"),
                     ("diagnostic", JSVal.obj [("severity", JSVal.str "error")])],
          JSVal.obj [("type", JSVal.str "diagnostic"),
                     ("diagnostic", JSVal.obj [("severity", JSVal.str "warning")])]]) ∧
    (JSVal.obj [("type", JSVal.str "diagnostic"),
                ("diagnostic", JSVal.obj [("severity", JSVal.str "warning")])] ∉
       processedLines false
         [JSVal.str "note",
          JSVal.obj [("type", JSVal.str "diagnostic"),
                     ("diagnostic", JSVal.obj [("severity", JSVal.str "error")])],
          JSVal.obj [("type", JSVal.str "diagnostic"),
                     ("diagnostic", JSVal.obj [("severity", JSVal.str "warning")])]]) ∧
    (∃ o, buildProject "/b" "/p/X.xcodeproj" "S" "Debug" "d" false
        (mkWorld (ExecOutcome.ok { stdout := "ok\n", stderr := "" })) = Except.ok o ∧
      ("/b/build-logs/build-2025-01-02T03-04-05-678Z.log.json",
       LogContent.jsonLines (processedLines false (decodeLines parseNone "ok\n"))) ∈ o.writes) := by
  refine ⟨?_, ?_, ?_⟩
  · exact (diagnostic_filter_iff.1 _ _).mpr
      ⟨by simp, rfl, _, rfl, rfl⟩
  · intro hmem
    have h := (diagnostic_filter_iff.1 _ _).mp hmem
    rcases h with ⟨-, -, d, hd, hsev⟩
    rw [show jsLookup
          [("type", JSVal.str "diagnostic"),
           ("diagnostic", JSVal.obj [("severity", JSVal.str "warning")])] "diagnostic" =
        some (JSVal.obj [("severity", JSVal.str "warning")]) from rfl] at hd
    injection hd with h2
    cases h2
    simp [isStrField, jsLookup] at hsev
  · exact diagnostic_filter_iff.2 "/b" "/p/X.xcodeproj" "S" "Debug" "d"
      (mkWorld (ExecOutcome.ok { stdout := "ok\n", stderr := "" }))
      { stdout := "ok\n", stderr := "" } rfl rfl

set_option maxRecDepth 100000 in
/-- C4, counterexample.  For `skipTests = [A/b, C/d]` the rendered
flags are two order-preserved terms, but — against the claim's "each
independently quoted/escaped" — the rendering contains no double
quote, no single quote and no backslash at all: each entry is
interpolated verbatim (the project path, by contrast, is quoted in the
same command). -/
theorem skip_flags_unquoted :
    testFlags none (some ["A/b", "C/d"]) = "test -skip-testing:A/b -skip-testing:C/d" ∧
    strContains (testFlags none (some ["A/b", "C/d"])) "\"" = false ∧
    strContains (testFlags none (some ["A/b", "C/d"])) "\x27" = false ∧
    strContains (testFlags none (some ["A/b", "C/d"])) "\\" = false ∧
    strContains
      (testCommand "/p/X.xcodeproj" "S" "Debug" "iPhone" "/p/TestReports/R.xcresult"
        "/b/build-logs/test-T.log" (testFlags none (some ["A/b", "C/d"])))
      "-skip-testing:A/b -skip-testing:C/d" = true ∧
    countOccs "-skip-testing:".data
      (testCommand "/p/X.xcodeproj" "S" "Debug" "iPhone" "/p/TestReports/R.xcresult"
        "/b/build-logs/test-T.log" (testFlags none (some ["A/b", "C/d"]))).data = 2 := by
  refine ⟨rfl, by decide, by decide, by decide, by decide, by decide⟩

/-- C4 as amended.  The composed test command contains exactly one
`-skip-testing:` term per entry of a nonempty `skipTests`, in order,
each interpolated verbatim (unquoted and unescaped): the flag segment
is literally the skip terms joined by single spaces, appended after the
base flags, and that segment occurs contiguously in the composed
command. -/
theorem skip_flags_one_per_entry :
    ∀ (ti : Option String) (skips : List String), skips ≠ [] →
      testFlags ti (some skips) =
        testFlags ti none ++ " " ++ joinSep " " (skips.map (fun t => "-skip-testing:" ++ t)) ∧
      ∀ (projectPath scheme configuration destination xcresultPath logPath : String),
        strContains
          (testCommand projectPath scheme configuration destination xcresultPath logPath
            (testFlags ti (some skips)))
          (joinSep " " (skips.map (fun t => "-skip-testing:" ++ t))) = true := by
  intro ti skips hne
  have hflags : testFlags ti (some skips) =
      testFlags ti none ++ " " ++ joinSep " " (skips.map (fun t => "-skip-testing:" ++ t)) := by
    cases skips with
    | nil => exact absurd rfl hne
    | cons a as => rfl
  refine ⟨hflags, ?_⟩
  intro pp sc cf d xr lp
  rw [hflags]
  unfold testCommand
  apply strContains_append_l
  apply strContains_append_l
  apply strContains_append_r
  apply strContains_append_r
  exact strContains_self _

/-- Witness for C4's amended statement at the claim's own example. -/
theorem skip_flags_one_per_entry_witness :
    testFlags none (some ["A/b", "C/d"]) =
      testFlags none none ++ " " ++
        joinSep " " (["A/b", "C/d"].map (fun t => "-skip-testing:" ++ t)) ∧
    strContains
      (testCommand "/p/X.xcodeproj" "S" "Debug" "iPhone" "/xr" "/lp"
        (testFlags none (some ["A/b", "C/d"])))
      (joinSep " " (["A/b", "C/d"].map (fun t => "-skip-testing:" ++ t))) = true := by
  have h := skip_flags_one_per_entry none ["A/b", "C/d"] (by decide)
  exact ⟨h.1, h.2 "/p/X.xcodeproj" "S" "Debug" "iPhone" "/xr" "/lp"⟩

/-- C5, counterexample.  A build whose process resolves with stdout
free of the failure banner still returns `success = false` when the
structured-log write (`.log.json`) fails: the catch branch reports
failure unconditionally, so a banner-free output does not guarantee
`success = true`. -/
theorem json_write_failure_fails_clean_build :
    ∃ o,
      buildProject "/b" "/p/X.xcodeproj" "S" "Debug" "d" false
          { mkWorld (ExecOutcome.ok { stdout := "BUILD SUCCEEDED\n", stderr := "" }) with
              writeJsonFails := true } =
        Except.ok o ∧
      o.result.success = false ∧
      strContains "BUILD SUCCEEDED\n" "** BUILD FAILED **" = false :=
  ⟨_, rfl, rfl, by decide⟩

/-- C5 as amended.  A test invocation whose process resolves with
neither banner in stdout returns `success = true`; a build invocation
does so provided its structured-log write also succeeds (if that write
fails, the build reports `success = false` even with banner-free
output). -/
theorem no_banner_success :
    (∀ (baseDir projectPath scheme configuration destination : String) (iw : Bool)
       (w : World) (r : ExecOk),
       w.exec = ExecOutcome.ok r → w.writeJsonFails = false →
       strContains r.stdout "** BUILD FAILED **" = false →
       ∃ o, buildProject baseDir projectPath scheme configuration destination iw w = Except.ok o ∧
         o.result.success = true) ∧
    (∀ (baseDir projectPath scheme configuration : String)
       (ti : Option String) (sk : Option (List String)) (destination : String)
       (w : World) (r : ExecOk),
       w.exec = ExecOutcome.ok r →
       strContains r.stdout "** BUILD FAILED **" = false →
       strContains r.stdout "** TEST FAILED **" = false →
       ∃ o, runTests baseDir projectPath scheme configuration ti sk destination w = Except.ok o ∧
         o.result.success = true) := by
  constructor
  · intro bd pp sc cf d iw w r hexec hwj hban
    simp only [buildProject, hexec, hwj, Bool.false_eq_true, if_false]
    exact ⟨_, rfl, by simp [hban]⟩
  · intro bd pp sc cf ti sk d w r hexec hb ht
    simp only [runTests, hexec]
    exact ⟨_, rfl, by simp [hb, ht]⟩

/-- Witness for C5's amended statement: a clean concrete build and a
clean concrete test run both report success. -/
theorem no_banner_success_witness :
    (∃ o, buildProject "/b" "/p/X.xcodeproj" "S" "Debug" "d" false
        (mkWorld (ExecOutcome.ok { stdout := "BUILD SUCCEEDED\n", stderr := "" })) =
          Except.ok o ∧
      o.result.success = true) ∧
    (∃ o, runTests "/b" "/p/X.xcodeproj" "S" "Debug" none none "d"
        (mkWorld (ExecOutcome.ok { stdout := "TEST SUCCEEDED\n", stderr := "" })) =
          Except.ok o ∧
      o.result.success = true) := by
  constructor
  · exact no_banner_success.1 "/b" "/p/X.xcodeproj" "S" "Debug" "d" false
      (mkWorld (ExecOutcome.ok { stdout := "BUILD SUCCEEDED\n", stderr := "" }))
      { stdout := "BUILD SUCCEEDED\n", stderr := "" } rfl rfl (by decide)
  · exact no_banner_success.2 "/b" "/p/X.xcodeproj" "S" "Debug" none none "d"
      (mkWorld (ExecOutcome.ok { stdout := "TEST SUCCEEDED\n", stderr := "" }))
      { stdout := "TEST SUCCEEDED\n", stderr := "" } rfl (by decide) (by decide)

/-- C6.  When process execution rejects with an `Error`-shaped value,
the assembled error text (message plus any attached nonempty stderr) is
written to the raw log path and returned in a `success = false` result
instead of propagating; exactly when the thrown value is not an
`Error`, it is re-raised to the caller.  Stated for both pipelines. -/
theorem exec_error_handling :
    (∀ (baseDir projectPath scheme configuration destination : String) (iw : Bool)
       (w : World) (e : JsError),
       w.exec = ExecOutcome.err e →
       (e.isError = true →
         ∃ o, buildProject baseDir projectPath scheme configuration destination iw w = Except.ok o ∧
           o.result.success = false ∧
           o.result.output = jsErrorOutput e ∧
           o.result.logPath =
             pathJoin (pathJoin baseDir "build-logs")
               ("build-" ++ normalizeTs w.isoTimestamp ++ ".log") ∧
           o.writes = [(o.result.logPath, LogContent.text (jsErrorOutput e))]) ∧
       (e.isError = false →
         buildProject baseDir projectPath scheme configuration destination iw w =
           Except.error e)) ∧
    (∀ (baseDir projectPath scheme configuration : String)
       (ti : Option String) (sk : Option (List String)) (destination : String)
       (w : World) (e : JsError),
       w.exec = ExecOutcome.err e →
       (e.isError = true →
         ∃ o, runTests baseDir projectPath scheme configuration ti sk destination w = Except.ok o ∧
           o.result.success = false ∧
           o.result.output = jsErrorOutput e ∧
           o.result.logPath =
             pathJoin (pathJoin baseDir "build-logs")
               ("test-" ++ normalizeTs w.isoTimestamp ++ ".log") ∧
           o.writes = [(o.result.logPath, LogContent.text (jsErrorOutput e))]) ∧
       (e.isError = false →
         runTests baseDir projectPath scheme configuration ti sk destination w =
           Except.error e)) := by
  constructor
  · intro bd pp sc cf d iw w e hexec
    constructor
    · intro hie
      simp only [buildProject, hexec, hie, if_true]
      exact ⟨_, rfl, rfl, rfl, rfl, rfl⟩
    · intro hie
      simp only [buildProject, hexec, hie, Bool.false_eq_true, if_false]
  · intro bd pp sc cf ti sk d w e hexec
    constructor
    · intro hie
      simp only [runTests, hexec, hie, if_true]
      exact ⟨_, rfl, rfl, rfl, rfl, rfl⟩
    · intro hie
      simp only [runTests, hexec, hie, Bool.false_eq_true, if_false]

/-- Witness for C6: a concrete `Error`-shaped rejection on the build
side (message plus attached stderr, joined by a newline) and a concrete
non-`Error` rejection on the test side (re-raised). -/
theorem exec_error_handling_witness :
    (∃ o, buildProject "/b" "/p/X.xcodeproj" "S" "Debug" "d" false
        (mkWorld (ExecOutcome.err
          { isError := true, message := "Command failed", errStderr := some "xcodebuild: error" })) =
          Except.ok o ∧
      o.result.success = false ∧
      o.result.output = "Command failed\nxcodebuild: error" ∧
      o.writes =
        [("/b/build-logs/build-2025-01-02T03-04-05-678Z.log",
          LogContent.text "Command failed\nxcodebuild: error")]) ∧
    runTests "/b" "/p/X.xcodeproj" "S" "Debug" none none "d"
        (mkWorld (ExecOutcome.err
          { isError := false, message := "string throw", errStderr := none })) =
      Except.error { isError := false, message := "string throw", errStderr := none } := by
  constructor
  · rcases (exec_error_handling.1 "/b" "/p/X.xcodeproj" "S" "Debug" "d" false
        (mkWorld (ExecOutcome.err
          { isError := true, message := "Command failed", errStderr := some "xcodebuild: error" }))
        { isError := true, message := "Command failed", errStderr := some "xcodebuild: error" }
        rfl).1 rfl with ⟨o, hok, hsu, hout, hlog, hw⟩
    exact ⟨o, hok, hsu, hout, by rw [hw, hlog]; rfl⟩
  · exact (exec_error_handling.2 "/b" "/p/X.xcodeproj" "S" "Debug" none none "d"
      (mkWorld (ExecOutcome.err
        { isError := false, message := "string throw", errStderr := none }))
      { isError := false, message := "string throw", errStderr := none } rfl).2 rfl

/-- Count of non-empty input lines, written after the claim's own words
("the decoded sequence length equals the number of non-empty input
lines") for comparison against the source-derived pipeline; the source
instead drops every line that is blank after trimming. -/
def claimNonEmptyLineCount (stdout : String) : Nat :=
  ((splitLines stdout).filter (fun l => l ≠ "")).length

/-- C7, counterexample.  A whitespace-only line is non-empty but is
dropped by the `line.trim()` filter before decoding, so on the one-line
input consisting of a single space the decoded sequence is empty while
the non-empty input line count is one.  (The choice of parser is
irrelevant: the line is discarded before any decoding happens.) -/
theorem blank_line_not_counted :
    (decodeLines parseNone " ").length = 0 ∧ claimNonEmptyLineCount " " = 1 := by
  decide

/-- C7 as amended.  The decoding step maps each non-blank line (in
order) either to its JSON-decoded value or, when decoding fails, to the
line itself unchanged as plain text, and the decoded sequence length
equals the number of non-blank input lines — lines nonempty after
trimming whitespace, rather than merely non-empty. -/
theorem decode_fallback_pointwise :
    ∀ (parse : String → Option JSVal) (stdout : String),
      (decodeLines parse stdout).length = (nonBlankLines stdout).length ∧
      List.Forall₂
        (fun l d => (∀ v, parse l = some v → d = v) ∧ (parse l = none → d = JSVal.str l))
        (nonBlankLines stdout) (decodeLines parse stdout) := by
  intro parse stdout
  refine ⟨by simp [decodeLines], ?_⟩
  unfold decodeLines
  rw [List.forall₂_map_right_iff, List.forall₂_same]
  intro x _
  constructor
  · intro v hv
    unfold decodeLine
    rw [hv]
  · intro hv
    unfold decodeLine
    rw [hv]

/-- Witness for C7's amended statement at a concrete mixed input. -/
theorem decode_fallback_pointwise_witness :
    (decodeLines parseNone "a\n \nb").length = (nonBlankLines "a\n \nb").length ∧
    (decodeLines parseNone "a\n \nb").length = 2 :=
  ⟨(decode_fallback_pointwise parseNone "a\n \nb").1, by decide⟩

/-- C8.  With `includeWarnings = true` no filtering is applied: the
processed sequence is the full decoded sequence, the persisted
structured log holds exactly that sequence, and the returned output is
its rendering — every decoded line kept, in order. -/
theorem include_warnings_no_filter :
    ∀ (baseDir projectPath scheme configuration destination : String) (w : World) (r : ExecOk),
      w.exec = ExecOutcome.ok r → w.writeJsonFails = false →
      ∃ o, buildProject baseDir projectPath scheme configuration destination true w = Except.ok o ∧
        processedLines true (decodeLines w.parse r.stdout) = decodeLines w.parse r.stdout ∧
        (pathJoin (pathJoin baseDir "build-logs")
             ("build-" ++ normalizeTs w.isoTimestamp ++ ".log") ++ ".json",
         LogContent.jsonLines (decodeLines w.parse r.stdout)) ∈ o.writes ∧
        o.result.output = renderLines w.stringify (decodeLines w.parse r.stdout) := by
  intro bd pp sc cf d w r hexec hwj
  simp only [buildProject, hexec, hwj, Bool.false_eq_true, if_false]
  exact ⟨_, rfl, rfl, List.mem_cons_of_mem _ (List.mem_cons_self _ _), rfl⟩

/-- Witness for C8: a concrete build with warnings requested keeps a
plain line that the diagnostic filter would otherwise drop. -/
theorem include_warnings_no_filter_witness :
    (∃ o, buildProject "/b" "/p/X.xcodeproj" "S" "Debug" "d" true
        (mkWorld (ExecOutcome.ok { stdout := "hello\n", stderr := "" })) = Except.ok o ∧
      ("/b/build-logs/build-2025-01-02T03-04-05-678Z.log.json",
       LogContent.jsonLines (decodeLines parseNone "hello\n")) ∈ o.writes ∧
      o.result.output = "hello") ∧
    processedLines false (decodeLines parseNone "hello\n") = [] := by
  constructor
  · rcases include_warnings_no_filter "/b" "/p/X.xcodeproj" "S" "Debug" "d"
      (mkWorld (ExecOutcome.ok { stdout := "hello\n", stderr := "" }))
      { stdout := "hello\n", stderr := "" } rfl rfl with ⟨o, hok, -, hmem, hout⟩
    exact ⟨o, hok, hmem, hout⟩
  · rfl

theorem pathJoin_length (a b : String) : (pathJoin a b).length = a.length + b.length + 1 := by
  have h : ("/" : String).length = 1 := rfl
  simp only [pathJoin, String.length_append, h]
  omega

theorem seg_length (pre ts suf : String) :
    (pre ++ ts ++ suf).length = pre.length + ts.length + suf.length := by
  simp [String.length_append]

theorem append_ne_self (s t : String) (h : t.length ≠ 0) : s ++ t ≠ s := by
  apply strNe_of_length_ne
  rw [String.length_append]
  omega

theorem pathJoin_seg_ne (dir pre1 ts suf1 pre2 suf2 : String)
    (h : pre1.length + suf1.length ≠ pre2.length + suf2.length) :
    pathJoin dir (pre1 ++ ts ++ suf1) ≠ pathJoin dir (pre2 ++ ts ++ suf2) := by
  apply strNe_of_length_ne
  rw [pathJoin_length, pathJoin_length, seg_length, seg_length]
  omega

/-- After any build invocation that returns a result, the content at
the returned log path (under last-write-wins) is exactly the raw log
text of the world: the captured stdout, or the assembled error text. -/
theorem buildProject_rawlog (baseDir projectPath scheme configuration destination : String)
    (iw : Bool) (w : World) (o : InvocationOutcome)
    (hok : buildProject baseDir projectPath scheme configuration destination iw w = Except.ok o) :
    ∃ t, rawLogText w = some t ∧
      diskLookup o.writes o.result.logPath = some (LogContent.text t) := by
  unfold buildProject at hok
  cases hexec : w.exec with
  | ok r =>
    rw [hexec] at hok
    by_cases hwj : w.writeJsonFails = true
    · simp only [hwj, if_true] at hok
      injection hok with h
      subst h
      refine ⟨r.stdout, by simp [rawLogText, hexec], ?_⟩
      exact diskLookup_head _ (by intro e he; simp at he)
    · simp only [Bool.not_eq_true] at hwj
      simp only [hwj, Bool.false_eq_true, if_false] at hok
      injection hok with h
      subst h
      refine ⟨r.stdout, by simp [rawLogText, hexec], ?_⟩
      apply diskLookup_head
      intro e he
      rcases List.mem_cons.mp he with he | he
      · rw [he]
        exact append_ne_self _ ".json" (by decide)
      · by_cases hx : w.xcresultExists = true
        · simp only [hx, if_true] at he
          rcases runExtract_paths _ _ _ e he with h1 | h1 <;> rw [h1]
          · exact pathJoin_seg_ne _ "report-" _ ".json" "build-" ".log" (by decide)
          · exact pathJoin_seg_ne _ "report-" _ ".txt" "build-" ".log" (by decide)
        · simp [hx] at he
  | err e =>
    rw [hexec] at hok
    by_cases hie : e.isError = true
    · simp only [hie, if_true] at hok
      injection hok with h
      subst h
      refine ⟨jsErrorOutput e, by simp [rawLogText, hexec, hie], ?_⟩
      exact diskLookup_head _ (by intro x hx; simp at hx)
    · simp only [Bool.not_eq_true] at hie
      simp only [hie, Bool.false_eq_true, if_false] at hok
      exact absurd hok (by simp)

/-- Test-side counterpart of `buildProject_rawlog`. -/
theorem runTests_rawlog (baseDir projectPath scheme configuration : String)
    (ti : Option String) (sk : Option (List String)) (destination : String)
    (w : World) (o : InvocationOutcome)
    (hok : runTests baseDir projectPath scheme configuration ti sk destination w = Except.ok o) :
    ∃ t, rawLogText w = some t ∧
      diskLookup o.writes o.result.logPath = some (LogContent.text t) := by
  unfold runTests at hok
  cases hexec : w.exec with
  | ok r =>
    rw [hexec] at hok
    injection hok with h
    subst h
    refine ⟨r.stdout, by simp [rawLogText, hexec], ?_⟩
    apply diskLookup_head
    intro e he
    rcases List.mem_append.mp he with he | he
    · by_cases hwj : w.writeJsonFails = true
      · simp [hwj] at he
      · simp only [Bool.not_eq_true] at hwj
        simp only [hwj, Bool.false_eq_true, if_false, List.mem_singleton] at he
        rw [he]
        exact append_ne_self _ ".json" (by decide)
    · by_cases hx : w.xcresultExists = true
      · simp only [hx, if_true] at he
        rcases runExtract_paths _ _ _ e he with h1 | h1 <;> rw [h1]
        · exact pathJoin_seg_ne _ "test-summary-" _ ".json" "test-" ".log" (by decide)
        · exact pathJoin_seg_ne _ "coverage-" _ ".txt" "test-" ".log" (by decide)
      · simp [hx] at he
  | err e =>
    rw [hexec] at hok
    by_cases hie : e.isError = true
    · simp only [hie, if_true] at hok
      injection hok with h
      subst h
      refine ⟨jsErrorOutput e, by simp [rawLogText, hexec, hie], ?_⟩
      exact diskLookup_head _ (by intro x hx; simp at hx)
    · simp only [Bool.not_eq_true] at hie
      simp only [hie, Bool.false_eq_true, if_false] at hok
      exact absurd hok (by simp)

/-- C9.  The latest-log pointer is updated to the returned raw log path
by every build or test invocation that returns a result; before any
invocation the resource list is empty; and after one invocation from
the initial state exactly one resource is listed, whose content is the
just-written raw log text. -/
theorem latest_log_pointer :
    listResources initialState = [] ∧
    (∀ (s : ServerState) (baseDir projectPath scheme configuration destination : String)
       (iw : Bool) (w : World) (resp : ToolResponse) (s' : ServerState),
       handleBuildTool s baseDir projectPath scheme configuration destination iw w =
         Except.ok (resp, s') →
       ∃ o, buildProject baseDir projectPath scheme configuration destination iw w =
         Except.ok o ∧ s'.latestBuildLog = some o.result.logPath) ∧
    (∀ (s : ServerState) (baseDir projectPath scheme configuration : String)
       (ti : Option String) (sk : Option (List String)) (destination : String)
       (w : World) (resp : ToolResponse) (s' : ServerState),
       handleTestTool s baseDir projectPath scheme configuration ti sk destination w =
         Except.ok (resp, s') →
       ∃ o, runTests baseDir projectPath scheme configuration ti sk destination w =
         Except.ok o ∧ s'.latestBuildLog = some o.result.logPath) ∧
    (∀ (baseDir projectPath scheme configuration destination : String)
       (iw : Bool) (w : World) (resp : ToolResponse) (s' : ServerState),
       handleBuildTool initialState baseDir projectPath scheme configuration destination iw w =
         Except.ok (resp, s') →
       listResources s' = [latestLogUri] ∧
       ∃ t, rawLogText w = some t ∧
         readResource s' latestLogUri = some (LogContent.text t)) ∧
    (∀ (baseDir projectPath scheme configuration : String)
       (ti : Option String) (sk : Option (List String)) (destination : String)
       (w : World) (resp : ToolResponse) (s' : ServerState),
       handleTestTool initialState baseDir projectPath scheme configuration ti sk destination w =
         Except.ok (resp, s') →
       listResources s' = [latestLogUri] ∧
       ∃ t, rawLogText w = some t ∧
         readResource s' latestLogUri = some (LogContent.text t)) := by
  refine ⟨rfl, ?_, ?_, ?_, ?_⟩
  · intro s bd pp sc cf d iw w resp s' h
    unfold handleBuildTool at h
    cases hb : buildProject bd pp sc cf d iw w with
    | ok o =>
      rw [hb] at h
      injection h with h2
      have h3 : (applyOutcome s o).2 = s' := congrArg Prod.snd h2
      exact ⟨o, rfl, by rw [← h3]; rfl⟩
    | error e => rw [hb] at h; exact absurd h (by simp)
  · intro s bd pp sc cf ti sk d w resp s' h
    unfold handleTestTool at h
    cases hb : runTests bd pp sc cf ti sk d w with
    | ok o =>
      rw [hb] at h
      injection h with h2
      have h3 : (applyOutcome s o).2 = s' := congrArg Prod.snd h2
      exact ⟨o, rfl, by rw [← h3]; rfl⟩
    | error e => rw [hb] at h; exact absurd h (by simp)
  · intro bd pp sc cf d iw w resp s' h
    unfold handleBuildTool at h
    cases hb : buildProject bd pp sc cf d iw w with
    | ok o =>
      rw [hb] at h
      injection h with h2
      have h3 : (applyOutcome initialState o).2 = s' := congrArg Prod.snd h2
      rcases buildProject_rawlog _ _ _ _ _ _ _ _ hb with ⟨t, hraw, hdl⟩
      refine ⟨by rw [← h3]; rfl, t, hraw, ?_⟩
      rw [← h3]
      simpa [readResource, applyOutcome, initialState] using hdl
    | error e => rw [hb] at h; exact absurd h (by simp)
  · intro bd pp sc cf ti sk d w resp s' h
    unfold handleTestTool at h
    cases hb : runTests bd pp sc cf ti sk d w with
    | ok o =>
      rw [hb] at h
      injection h with h2
      have h3 : (applyOutcome initialState o).2 = s' := congrArg Prod.snd h2
      rcases runTests_rawlog _ _ _ _ _ _ _ _ _ hb with ⟨t, hraw, hdl⟩
      refine ⟨by rw [← h3]; rfl, t, hraw, ?_⟩
      rw [← h3]
      simpa [readResource, applyOutcome, initialState] using hdl
    | error e => rw [hb] at h; exact absurd h (by simp)

/-- Witness for C9: the empty initial resource list, and one concrete
build invocation after which the pointer holds the returned log path
and the single listed resource reads back the raw log text. -/
theorem latest_log_pointer_witness :
    listResources initialState = [] ∧
    ∃ resp s' o,
      handleBuildTool initialState "/b" "/p/X.xcodeproj" "S" "Debug" "d" false
          (mkWorld (ExecOutcome.ok { stdout := "BUILD SUCCEEDED\n", stderr := "" })) =
        Except.ok (resp, s') ∧
      buildProject "/b" "/p/X.xcodeproj" "S" "Debug" "d" false
          (mkWorld (ExecOutcome.ok { stdout := "BUILD SUCCEEDED\n", stderr := "" })) =
        Except.ok o ∧
      s'.latestBuildLog = some o.result.logPath ∧
      listResources s' = [latestLogUri] ∧
      readResource s' latestLogUri = some (LogContent.text "BUILD SUCCEEDED\n") := by
  obtain ⟨resp, s', hcall⟩ :
      ∃ resp s', handleBuildTool initialState "/b" "/p/X.xcodeproj" "S" "Debug" "d" false
          (mkWorld (ExecOutcome.ok { stdout := "BUILD SUCCEEDED\n", stderr := "" })) =
        Except.ok (resp, s') := ⟨_, _, rfl⟩
  obtain ⟨o, hbp, hptr⟩ := latest_log_pointer.2.1 _ _ _ _ _ _ _ _ _ _ hcall
  obtain ⟨hlist, t, hraw, hread⟩ := latest_log_pointer.2.2.2.1 _ _ _ _ _ _ _ _ _ hcall
  have h2 : (some "BUILD SUCCEEDED\n" : Option String) = some t := hraw
  injection h2 with h3
  refine ⟨latest_log_pointer.1, resp, s', o, hcall, hbp, hptr, hlist, ?_⟩
  rw [hread, ← h3]

/-- Sample extraction environment in which every sub-step fails. -/
def extractAllFail : ExtractEnv :=
  { out1 := StepResult.fail, write1Ok := false
    out2 := StepResult.fail, write2Ok := false }

/-- C10, counterexample.  A build whose process rejects (with an
`Error`-shaped value) while the result-bundle path does exist on disk
performs no extraction: the claimed "attempted if and only if the
bundle path exists after the process exits" fails in the only-if-exists
direction whenever the invocation takes the error path. -/
theorem bundle_extraction_skipped_on_error :
    ∃ o,
      buildProject "/b" "/p/X.xcodeproj" "S" "Debug" "d" false
          { mkWorld (ExecOutcome.err
              { isError := true, message := "Command failed", errStderr := none }) with
              xcresultExists := true } =
        Except.ok o ∧
      o.extractionAttempted = false ∧
      ({ mkWorld (ExecOutcome.err
           { isError := true, message := "Command failed", errStderr := none }) with
           xcresultExists := true } : World).xcresultExists = true :=
  ⟨_, rfl, rfl, rfl⟩

/-- C10 as amended.  Result-bundle post-processing is attempted only if
the bundle path exists on disk (in particular, never when it is
missing), and on the resolved path — for builds additionally requiring
the structured-log write to succeed — it is attempted exactly when the
bundle exists; and the outcome of the extraction sub-steps never alters
the success flag, output, or log path of the primary result. -/
theorem bundle_post_processing :
    (∀ (baseDir projectPath scheme configuration destination : String) (iw : Bool)
       (w : World) (o : InvocationOutcome),
       buildProject baseDir projectPath scheme configuration destination iw w = Except.ok o →
       o.extractionAttempted = true → w.xcresultExists = true) ∧
    (∀ (baseDir projectPath scheme configuration : String)
       (ti : Option String) (sk : Option (List String)) (destination : String)
       (w : World) (o : InvocationOutcome),
       runTests baseDir projectPath scheme configuration ti sk destination w = Except.ok o →
       o.extractionAttempted = true → w.xcresultExists = true) ∧
    (∀ (baseDir projectPath scheme configuration destination : String) (iw : Bool)
       (w : World) (r : ExecOk),
       w.exec = ExecOutcome.ok r → w.writeJsonFails = false →
       ∃ o, buildProject baseDir projectPath scheme configuration destination iw w = Except.ok o ∧
         o.extractionAttempted = w.xcresultExists) ∧
    (∀ (baseDir projectPath scheme configuration : String)
       (ti : Option String) (sk : Option (List String)) (destination : String)
       (w : World) (r : ExecOk),
       w.exec = ExecOutcome.ok r →
       ∃ o, runTests baseDir projectPath scheme configuration ti sk destination w = Except.ok o ∧
         o.extractionAttempted = w.xcresultExists) ∧
    (∀ (baseDir projectPath scheme configuration destination : String) (iw : Bool)
       (w : World) (env1 env2 : ExtractEnv),
       resultOf (buildProject baseDir projectPath scheme configuration destination iw
           { w with extract := env1 }) =
         resultOf (buildProject baseDir projectPath scheme configuration destination iw
           { w with extract := env2 })) ∧
    (∀ (baseDir projectPath scheme configuration : String)
       (ti : Option String) (sk : Option (List String)) (destination : String)
       (w : World) (env1 env2 : ExtractEnv),
       resultOf (runTests baseDir projectPath scheme configuration ti sk destination
           { w with extract := env1 }) =
         resultOf (runTests baseDir projectPath scheme configuration ti sk destination
           { w with extract := env2 })) := by
  refine ⟨?_, ?_, ?_, ?_, ?_, ?_⟩
  · intro bd pp sc cf d iw w o hok hatt
    unfold buildProject at hok
    cases hexec : w.exec with
    | ok r =>
      rw [hexec] at hok
      by_cases hwj : w.writeJsonFails = true
      · simp only [hwj, if_true] at hok
        injection hok with h
        subst h
        simp at hatt
      · simp only [Bool.not_eq_true] at hwj
        simp only [hwj, Bool.false_eq_true, if_false] at hok
        injection hok with h
        subst h
        exact hatt
    | err e =>
      rw [hexec] at hok
      by_cases hie : e.isError = true
      · simp only [hie, if_true] at hok
        injection hok with h
        subst h
        simp at hatt
      · simp only [Bool.not_eq_true] at hie
        simp only [hie, Bool.false_eq_true, if_false] at hok
        exact absurd hok (by simp)
  · intro bd pp sc cf ti sk d w o hok hatt
    unfold runTests at hok
    cases hexec : w.exec with
    | ok r =>
      rw [hexec] at hok
      injection hok with h
      subst h
      exact hatt
    | err e =>
      rw [hexec] at hok
      by_cases hie : e.isError = true
      · simp only [hie, if_true] at hok
        injection hok with h
        subst h
        simp at hatt
      · simp only [Bool.not_eq_true] at hie
        simp only [hie, Bool.false_eq_true, if_false] at hok
        exact absurd hok (by simp)
  · intro bd pp sc cf d iw w r hexec hwj
    simp only [buildProject, hexec, hwj, Bool.false_eq_true, if_false]
    exact ⟨_, rfl, rfl⟩
  · intro bd pp sc cf ti sk d w r hexec
    simp only [runTests, hexec]
    exact ⟨_, rfl, rfl⟩
  · intro bd pp sc cf d iw w env1 env2
    unfold buildProject resultOf
    cases hexec : w.exec with
    | ok r =>
      by_cases hwj : w.writeJsonFails = true <;>
        simp [hexec, hwj, Except.map]
    | err e =>
      by_cases hie : e.isError = true <;>
        simp [hexec, hie, Except.map]
  · intro bd pp sc cf ti sk d w env1 env2
    unfold runTests resultOf
    cases hexec : w.exec with
    | ok r => simp [hexec, Except.map]
    | err e =>
      by_cases hie : e.isError = true <;>
        simp [hexec, hie, Except.map]

/-- Witness for C10's amended statement: with a present bundle and a
resolved process, extraction is attempted on both pipelines, and a
concrete all-failing extraction environment leaves the primary result
identical to an all-succeeding one. -/
theorem bundle_post_processing_witness :
    (∃ o, buildProject "/b" "/p/X.xcodeproj" "S" "Debug" "d" false
        { mkWorld (ExecOutcome.ok { stdout := "ok\n", stderr := "" }) with
            xcresultExists := true } = Except.ok o ∧
      o.extractionAttempted = true) ∧
    (∃ o, runTests "/b" "/p/X.xcodeproj" "S" "Debug" none none "d"
        { mkWorld (ExecOutcome.ok { stdout := "ok\n", stderr := "" }) with
            xcresultExists := true } = Except.ok o ∧
      o.extractionAttempted = true) ∧
    resultOf (buildProject "/b" "/p/X.xcodeproj" "S" "Debug" "d" false
        { mkWorld (ExecOutcome.ok { stdout := "ok\n", stderr := "" }) with
            xcresultExists := true, extract := extractAllOk }) =
      resultOf (buildProject "/b" "/p/X.xcodeproj" "S" "Debug" "d" false
        { mkWorld (ExecOutcome.ok { stdout := "ok\n", stderr := "" }) with
            xcresultExists := true, extract := extractAllFail }) := by
  refine ⟨?_, ?_, ?_⟩
  · exact bundle_post_processing.2.2.1 "/b" "/p/X.xcodeproj" "S" "Debug" "d" false
      { mkWorld (ExecOutcome.ok { stdout := "ok\n", stderr := "" }) with xcresultExists := true }
      { stdout := "ok\n", stderr := "" } rfl rfl
  · exact bundle_post_processing.2.2.2.1 "/b" "/p/X.xcodeproj" "S" "Debug" none none "d"
      { mkWorld (ExecOutcome.ok { stdout := "ok\n", stderr := "" }) with xcresultExists := true }
      { stdout := "ok\n", stderr := "" } rfl
  · exact bundle_post_processing.2.2.2.2.1 "/b" "/p/X.xcodeproj" "S" "Debug" "d" false
      { mkWorld (ExecOutcome.ok { stdout := "ok\n", stderr := "" }) with xcresultExists := true }
      extractAllOk extractAllFail

end XcodeMCP
